import Mathlib

/-!
Shallow embedding of the SmartCart mobile app's cart, product-matching and
vision-recognition logic (src/services/cart.ts, src/services/vision.ts,
src/hooks/useCart.ts), with theorems checking the natural-language
specification's claims against it.

Strings are modelled with Lean `String`; the JavaScript string operations
(`toLowerCase`, `trim`, `includes`, `endsWith`, split on whitespace) are
embedded as explicit functions over the character list. Numeric confidence
scores and prices are modelled as rationals, quantities as integers. Backend
(Supabase) tables are modelled as explicit state (lists of rows) and each
service function as a state transition returning the new state together with
its result; remote query results that are not a pure function of that state
are taken as parameters.
-/

namespace SmartCart

/-- Lower-case one character, as `String.prototype.toLowerCase` acts on the
ASCII range exercised by the app. -/
def lowerChar (c : Char) : Char :=
  if 'A' ≤ c && c ≤ 'Z' then Char.ofNat (c.toNat + 32) else c

/-- JavaScript `s.toLowerCase()`. -/
def jsToLower (s : String) : String := String.mk (s.toList.map lowerChar)

/-- JavaScript `s.trim()`. -/
def jsTrim (s : String) : String :=
  String.mk (((s.toList.dropWhile Char.isWhitespace).reverse.dropWhile
    Char.isWhitespace).reverse)

/-- Whether the first character list is a prefix of the second. -/
def listPrefixOf : List Char → List Char → Bool
  | [], _ => true
  | _ :: _, [] => false
  | a :: as, b :: bs => a = b && listPrefixOf as bs

/-- Whether the first character list occurs contiguously inside the second. -/
def listInfixOf : List Char → List Char → Bool
  | sub, [] => sub.isEmpty
  | sub, c :: rest => listPrefixOf sub (c :: rest) || listInfixOf sub rest

/-- JavaScript `s.includes(sub)`. -/
def strContains (s sub : String) : Bool := listInfixOf sub.toList s.toList

/-- JavaScript `s.endsWith(suffix)`. -/
def strEndsWith (s suffix : String) : Bool :=
  listPrefixOf suffix.toList.reverse s.toList.reverse

/-- JavaScript `s.substring(0, s.length - 1)`. -/
def dropLastStr (s : String) : String := String.mk s.toList.dropLast

/-- The food keyword list of `isFood` (src/services/vision.ts lines 85-98,
identical in the variants embedded in src/services/cart.ts). -/
def foodKeywords : List String :=
  ["fruit", "vegetable", "food", "produce", "grocery", "edible",
   "apple", "banana", "orange", "grape", "berry", "citrus",
   "strawberry", "blueberry", "raspberry", "blackberry", "melon",
   "watermelon", "cantaloupe", "pineapple", "mango", "peach", "pear",
   "plum", "cherry", "kiwi", "fig", "date", "apricot", "lemon", "lime",
   "tomato", "potato", "carrot", "broccoli", "lettuce", "spinach", "kale",
   "onion", "garlic", "pepper", "cucumber", "zucchini", "eggplant",
   "bread", "pasta", "rice", "cereal", "oats", "meat", "chicken", "beef",
   "pork", "fish", "seafood", "dairy", "milk", "cheese", "yogurt",
   "beverage", "drink", "juice", "water", "soda", "coffee", "tea",
   "snack", "candy", "chocolate", "cookies", "crackers", "chips",
   "natural food", "organic", "product", "grocery item", "supermarket"]

/-- `isFood` (src/services/vision.ts lines 83-107): lower-case and trim the
label, then test whether any food keyword occurs in it as a substring. -/
def isFood (label : String) : Bool :=
  let normalizedLabel := jsToLower (jsTrim label)
  foodKeywords.any (fun keyword => strContains normalizedLabel (jsToLower keyword))

/-- The plural exception list of `normalizeLabel` (src/services/vision.ts
line 117). -/
def pluralExceptions : List String := ["grapes", "chips", "oats", "cookies", "crackers"]

/-- `normalizeLabel` (src/services/vision.ts lines 112-122): lower-case, trim,
and strip one trailing "s" unless the whole normalized word is in the
exception list. -/
def normalizeLabel (label : String) : String :=
  let normalized := jsToLower (jsTrim label)
  if strEndsWith normalized "s" && !(pluralExceptions.contains normalized) then
    dropLastStr normalized
  else
    normalized

/-- A hexadecimal digit, case-insensitive, as the character class
`[0-9a-f]` with the `i` flag in `isValidUUID`'s regex. -/
def isHexDigit (c : Char) : Bool :=
  ('0' ≤ c && c ≤ '9') || ('a' ≤ c && c ≤ 'f') || ('A' ≤ c && c ≤ 'F')

/-- Split a character list at every dash, keeping empty groups; used to embed
the dash-separated group structure of the UUID regex. -/
def splitOnDash : List Char → List (List Char)
  | [] => [[]]
  | c :: rest =>
    if c = '-' then [] :: splitOnDash rest
    else
      match splitOnDash rest with
      | g :: gs => (c :: g) :: gs
      | [] => [[c]]

/-- `isValidUUID` (src/services/cart.ts lines 10-13, src/hooks/useCart.ts
lines 23-26): the string matches the anchored case-insensitive regex of five
dash-separated hex groups of lengths 8, 4, 4, 4 and 12. -/
def isValidUUID (s : String) : Bool :=
  match splitOnDash s.toList with
  | [a, b, c, d, e] =>
    a.length = 8 && b.length = 4 && c.length = 4 && d.length = 4 && e.length = 12
      && (a ++ b ++ c ++ d ++ e).all isHexDigit
  | _ => false

/-! ### Product catalog and the two product matchers -/

/-- A row of the `products` table (src/types/product.types.ts). Prices are
modelled as rationals. -/
structure Product where
  id : String
  name : String
  description : String
  price : ℚ
  image_url : String
  barcode : String
  category : String
deriving DecidableEq

/-- The backend queries `getProductFromDatabase` issues: the result of the
name-filtered `getProducts` call (a remote query, not a pure function of the
catalog snapshot) and the result of the fetch-everything `getProducts` call. -/
structure MatchEnv where
  nameQuery : String → List Product
  allProducts : List Product

/-- The stopword list of `getProductFromDatabase`'s per-word matching step
(src/services/vision.ts line 171). -/
def matchStopwords : List String :=
  ["food", "fresh", "ripe", "juicy", "sweet", "product", "item", "natural"]

/-- The shorter stopword list of `findBestProductMatch`'s per-word step
(the cart.ts vision variant, line 989). -/
def wordStopwords : List String := ["food", "fresh", "ripe", "juicy", "sweet"]

/-- Split a character list at whitespace. JavaScript's split on a whitespace
regex collapses runs; this version may emit empty tokens inside runs, which
the length-filter applied at every use site discards identically. -/
def splitWsChars : List Char → List Char → List (List Char)
  | [], acc => [acc.reverse]
  | c :: cs, acc =>
    if c.isWhitespace then acc.reverse :: splitWsChars cs []
    else splitWsChars cs (c :: acc)

/-- JavaScript split on whitespace, as used for the per-word matching steps. -/
def splitWs (s : String) : List String :=
  (splitWsChars s.toList []).map String.mk

/-- `getProductFromDatabase` (src/services/vision.ts lines 127-213): direct
name query, then exact lower-case name match, then substring containment
match, then per-word match, then the fruit and vegetable category
fallbacks. -/
def getProductFromDatabase (env : MatchEnv) (productName : String) : Option Product :=
  let normalizedProductName := normalizeLabel productName
  match (env.nameQuery normalizedProductName).head? with
  | some p => some p
  | none =>
    let allProducts := env.allProducts
    if allProducts.isEmpty then none
    else
      match allProducts.find? (fun product =>
          jsToLower product.name == normalizedProductName) with
      | some exactMatch => some exactMatch
      | none =>
        let containsMatches := allProducts.filter (fun product =>
          strContains (jsToLower product.name) normalizedProductName ||
          strContains normalizedProductName (jsToLower product.name))
        match containsMatches.head? with
        | some m => some m
        | none =>
          let words := (splitWs normalizedProductName).filter (fun word => 3 < word.length)
          match words.findSome? (fun word =>
              if matchStopwords.contains (jsToLower word) then none
              else allProducts.find? (fun product =>
                strContains (jsToLower product.name) word)) with
          | some wordMatch => some wordMatch
          | none =>
            let fruitStep :=
              if strContains normalizedProductName "fruit" then
                (allProducts.filter (fun product =>
                  jsToLower product.category == "fruit")).head?
              else none
            match fruitStep with
            | some m => some m
            | none =>
              if strContains normalizedProductName "vegetable" then
                (allProducts.filter (fun product =>
                  jsToLower product.category == "vegetable")).head?
              else none

/-- The JavaScript sort comparator `findBestProductMatch` uses when several
containment matches exist (cart.ts vision variant, lines 963-975). -/
def containsCmp (normalizedName : String) (a b : Product) : Int :=
  let aIn := strContains normalizedName (normalizeLabel a.name)
  let bIn := strContains normalizedName (normalizeLabel b.name)
  if aIn && !bIn then -1
  else if !aIn && bIn then 1
  else
    let aDiff : Int := ((a.name.length : Int) - (normalizedName.length : Int)).natAbs
    let bDiff : Int := ((b.name.length : Int) - (normalizedName.length : Int)).natAbs
    aDiff - bDiff

/-- The (stable) JavaScript `Array.prototype.sort` under `containsCmp`. -/
def sortByCmp (normalizedName : String) (l : List Product) : List Product :=
  List.insertionSort (fun a b => containsCmp normalizedName a b ≤ 0) l

/-- `findBestProductMatch` (cart.ts vision variant, lines 933-1021): exact
normalized-name match, then containment match (sorted when several), then
per-word match for multi-word labels, then a category fallback that looks
for products whose category lower-cases to "fruits"; there is no vegetable
fallback in this variant. -/
def findBestProductMatch (allProducts : List Product) (name : String) : Option Product :=
  let normalizedName := normalizeLabel name
  if allProducts.isEmpty then none
  else
    match allProducts.find? (fun p => normalizeLabel p.name == normalizedName) with
    | some exactMatch => some exactMatch
    | none =>
      let containsMatches := allProducts.filter (fun p =>
        strContains (normalizeLabel p.name) normalizedName ||
        strContains normalizedName (normalizeLabel p.name))
      if 1 < containsMatches.length then
        (sortByCmp normalizedName containsMatches).head?
      else
        match containsMatches.head? with
        | some m => some m
        | none =>
          let wordStep :=
            if strContains normalizedName " " then
              let words := (splitWs normalizedName).filter (fun w => 3 < w.length)
              words.findSome? (fun word =>
                if wordStopwords.contains word then none
                else (allProducts.filter (fun p =>
                  strContains (normalizeLabel p.name) word)).head?)
            else none
          match wordStep with
          | some m => some m
          | none =>
            if strContains normalizedName "fruit" then
              (allProducts.filter (fun p => jsToLower p.category == "fruits")).head?
            else none

/-! ### Vision API response shape and the two recognition orchestrators

Both orchestrators are embedded as functions of the decoded vision response
(the part after a successful, non-mocked HTTP call) that return the items
list together with the trace of labels passed to their product matcher. -/

/-- One entry of `labelAnnotations`. -/
structure LabelAnn where
  description : String
  score : ℚ
deriving DecidableEq

/-- One entry of `webDetection.webEntities`; `description` is optional. -/
structure WebEntity where
  description : Option String
  score : ℚ
deriving DecidableEq

/-- `webDetection`; each best-guess entry is modelled by its label string. -/
structure WebDetection where
  webEntities : Option (List WebEntity)
  bestGuessLabels : Option (List String)
deriving DecidableEq

/-- `data.responses[0]` of the vision API response. -/
structure VisionResponse where
  labelAnns : Option (List LabelAnn)
  webDetection : Option WebDetection
deriving DecidableEq

/-- The recognized-item record of src/services/vision.ts (all product fields
optional, confidence required). -/
structure RecognizedFoodItem where
  name : String
  confidence : ℚ
  price : Option ℚ
  category : Option String
  productId : Option String
  description : Option String
  image_url : Option String
deriving DecidableEq

/-- The item pushed for a matched product in src/services/vision.ts. -/
def productItem (product : Product) (confidence : ℚ) : RecognizedFoodItem :=
  ⟨product.name, confidence, some product.price, some product.category,
   some product.id, some product.description, some product.image_url⟩

/-- The "Not in database" sentinel of src/services/vision.ts lines 401-408. -/
def notInDatabaseItem : RecognizedFoodItem :=
  ⟨"Not in database", 1/2, some 0, some "Unknown", some "unknown",
   some "This item was recognized but not found in the database.", none⟩

/-- `data.responses[0].webDetection?.bestGuessLabels?.[0]?.label ?? ''`. -/
def bestGuessLabelOf (resp : VisionResponse) : String :=
  (((resp.webDetection.bind (·.bestGuessLabels)).getD []).head?).getD ""

/-- The descending-score sort of the label annotations (stable, as
JavaScript's sort). -/
def sortLabelsDesc (labels : List LabelAnn) : List LabelAnn :=
  List.insertionSort (fun a b => b.score ≤ a.score) labels

/-- The label-annotation loop of src/services/vision.ts lines 333-359: for
each label in order, apply the food filter and then the matcher, stopping at
the first match; also records which labels were passed to the matcher. -/
def tryLabelsV (env : MatchEnv) : List LabelAnn → Option RecognizedFoodItem × List String
  | [] => (none, [])
  | l :: ls =>
    if isFood l.description then
      match getProductFromDatabase env l.description with
      | some product => (some (productItem product l.score), [l.description])
      | none =>
        let r := tryLabelsV env ls
        (r.1, l.description :: r.2)
    else tryLabelsV env ls

/-- The web-entity loop of src/services/vision.ts lines 367-394 (entities
without a description are skipped), with the matcher-call trace. -/
def tryWebEntitiesV (env : MatchEnv) : List WebEntity → Option RecognizedFoodItem × List String
  | [] => (none, [])
  | e :: es =>
    let desc := e.description.getD ""
    if desc = "" then tryWebEntitiesV env es
    else if isFood desc then
      match getProductFromDatabase env desc with
      | some product => (some (productItem product e.score), [desc])
      | none =>
        let r := tryWebEntitiesV env es
        (r.1, desc :: r.2)
    else tryWebEntitiesV env es

/-- The best-guess step of src/services/vision.ts lines 302-325: the matcher
runs on the best-guess label only when it is non-empty and food-classified;
the trace records the matcher call. -/
def bgStepV (env : MatchEnv) (resp : VisionResponse) :
    Option RecognizedFoodItem × List String :=
  let bgLabel := bestGuessLabelOf resp
  if bgLabel ≠ "" && isFood bgLabel then
    match getProductFromDatabase env bgLabel with
    | some product => (some (productItem product (98/100)), [bgLabel])
    | none => (none, [bgLabel])
  else (none, [])

/-- `recognizeFoodWithVision` of src/services/vision.ts (lines 292-415, the
part after a successful non-mocked API call): best-guess label first, then
the top-3 label annotations by score, then the top-3 web entities, with the
"Not in database" sentinel when nothing resolves. The second component is
the trace of labels passed to `getProductFromDatabase`. -/
def recognizeFoodWithVisionV (env : MatchEnv) (resp : VisionResponse) :
    List RecognizedFoodItem × List String :=
  let bgStep := bgStepV env resp
  match bgStep.1 with
  | some item => ([item], bgStep.2)
  | none =>
    let labelStep := tryLabelsV env ((sortLabelsDesc (resp.labelAnns.getD [])).take 3)
    match labelStep.1 with
    | some item => ([item], bgStep.2 ++ labelStep.2)
    | none =>
      let webStep := tryWebEntitiesV env
        (((resp.webDetection.bind (·.webEntities)).getD []).take 3)
      match webStep.1 with
      | some item => ([item], bgStep.2 ++ labelStep.2 ++ webStep.2)
      | none => ([notInDatabaseItem], bgStep.2 ++ labelStep.2 ++ webStep.2)

/-- Modelled from the spec: the best-guess candidate (when present and
non-empty). -/
def bgCands (resp : VisionResponse) : List String :=
  if bestGuessLabelOf resp ≠ "" then [bestGuessLabelOf resp] else []

/-- Modelled from the spec: the top-3 label-annotation candidates, sorted by
descending score. -/
def labelCands (resp : VisionResponse) : List String :=
  ((sortLabelsDesc (resp.labelAnns.getD [])).take 3).map (·.description)

/-- Modelled from the spec: the top-3 web-entity candidates that carry a
description. -/
def webCands (resp : VisionResponse) : List String :=
  ((((resp.webDetection.bind (·.webEntities)).getD []).take 3).map
    (fun e => e.description.getD "")).filter (fun d => d ≠ "")

/-- Modelled from the spec (matching the embedded source order): the
orchestrator's candidate list — best-guess label, then top label
annotations, then top web entities. -/
def candidateLabels (resp : VisionResponse) : List String :=
  bgCands resp ++ labelCands resp ++ webCands resp

/-- Modelled from the spec: one candidate's resolution — the food filter
followed by the product matcher. -/
def foodMatch (env : MatchEnv) (c : String) : Option Product :=
  if isFood c then getProductFromDatabase env c else none

/-- Modelled from the spec: scan the candidates in order; the first resolved
catalog product wins. -/
def firstCandidateMatch (env : MatchEnv) (resp : VisionResponse) : Option Product :=
  (candidateLabels resp).findSome? (foodMatch env)

/-- The product-derived fields of a recognized item, for comparing an item
against a catalog product. -/
def itemFields (it : RecognizedFoodItem) :
    String × Option ℚ × Option String × Option String × Option String × Option String :=
  (it.name, it.price, it.category, it.productId, it.description, it.image_url)

/-- The same field tuple computed from a catalog product. -/
def productFields (p : Product) :
    String × Option ℚ × Option String × Option String × Option String × Option String :=
  (p.name, some p.price, some p.category, some p.id, some p.description, some p.image_url)

/-- A recognized item carries exactly the fields of the given product. -/
def sameProduct (item : RecognizedFoodItem) (product : Product) : Prop :=
  item.name = product.name ∧ item.price = some product.price ∧
  item.category = some product.category ∧ item.productId = some product.id ∧
  item.description = some product.description ∧ item.image_url = some product.image_url

/-- The recognized-item record of the cart.ts vision variant, whose returned
items always have their confidence stripped (`confidence: undefined`). -/
structure CartRecItem where
  name : String
  confidence : Option ℚ
  price : Option ℚ
  category : Option String
  productId : Option String
  description : Option String
  image_url : Option String
deriving DecidableEq

/-- A matched product projected into a `CartRecItem`. -/
def cartProductItem (product : Product) (confidence : Option ℚ) : CartRecItem :=
  ⟨product.name, confidence, some product.price, some product.category,
   some product.id, some product.description, some product.image_url⟩

/-- The "Not in database" sentinel of the cart.ts vision variant (after the
final confidence strip). -/
def cartNotInDatabaseItem : CartRecItem :=
  ⟨"Not in database", none, some 0, some "Unknown", some "unknown",
   some "This item was recognized but not found in the database.", none⟩

/-- One entry of the cart.ts variant's `possibleMatches` accumulator. -/
structure PossibleMatch where
  name : String
  confidence : ℚ
  source : String
deriving DecidableEq

/-- The `possibleMatches` list the cart.ts variant builds (lines 1156-1192):
the best-guess label when it passes the food filter, then up to five label
annotations with score above 0.7 passing the food filter, then up to three
web entities with score above 0.7, a present description and passing the
food filter. -/
def cartPossibleMatches (resp : VisionResponse) (bgLabel : String) : List PossibleMatch :=
  (if bgLabel ≠ "" && isFood bgLabel then [⟨bgLabel, 95/100, "best_guess"⟩] else [])
  ++ (((resp.labelAnns.getD []).filter (fun l =>
        (7/10 : ℚ) < l.score && isFood l.description)).take 5).map
      (fun l => ⟨l.description, l.score, "label"⟩)
  ++ ((((resp.webDetection.bind (·.webEntities)).getD []).filter (fun e =>
        (7/10 : ℚ) < e.score && e.description.getD "" ≠ "" &&
          isFood (e.description.getD ""))).take 3).map
      (fun e => ⟨e.description.getD "", e.score, "web_entity"⟩)

/-- The descending-confidence sort of `possibleMatches` (stable). -/
def sortMatchesDesc (ms : List PossibleMatch) : List PossibleMatch :=
  List.insertionSort (fun a b => b.confidence ≤ a.confidence) ms

/-- The cart.ts variant's loop over the sorted possible matches (lines
1206-1224), with the matcher-call trace. -/
def tryMatchesC (allProducts : List Product) :
    List PossibleMatch → Option CartRecItem × List String
  | [] => (none, [])
  | m :: ms =>
    match findBestProductMatch allProducts m.name with
    | some product => (some (cartProductItem product (some m.confidence)), [m.name])
    | none =>
      let r := tryMatchesC allProducts ms
      (r.1, m.name :: r.2)

/-- `recognizeFoodWithVision` of the cart.ts vision variant (lines 1079-1242,
after a successful API call): the best-guess label is passed straight to
`findBestProductMatch` with no food check; only when that fails is the
food-filtered, confidence-sorted candidate list scanned. The second
component is the trace of labels passed to `findBestProductMatch`. -/
def recognizeFoodWithVisionCart (allProducts : List Product) (resp : VisionResponse) :
    List CartRecItem × List String :=
  let bgLabel := bestGuessLabelOf resp
  let bgStep : Option Product :=
    if bgLabel ≠ "" then findBestProductMatch allProducts bgLabel else none
  match bgStep with
  | some product => ([cartProductItem product none], [bgLabel])
  | none =>
    let sorted := sortMatchesDesc (cartPossibleMatches resp bgLabel)
    let r := tryMatchesC allProducts sorted
    let trace := (if bgLabel ≠ "" then [bgLabel] else []) ++ r.2
    match r.1 with
    | some item => ([{ item with confidence := none }], trace)
    | none => ([cartNotInDatabaseItem], trace)

/-! ### Cart service: backend tables as explicit state -/

/-- A row of the `cart_items` table (timestamp columns omitted; no claim
mentions them). -/
structure ItemRow where
  id : String
  cart_id : String
  product_id : String
  quantity : Int
deriving DecidableEq

/-- A row of the `carts` table. -/
structure CartRow where
  id : String
  user_id : String
  status : String
  created_at : String
  updated_at : String
  checkout_at : Option String
  payment_method : Option String
deriving DecidableEq

/-- The backend state the cart service mutates. -/
structure DBState where
  carts : List CartRow
  cart_items : List ItemRow
deriving DecidableEq

/-- The fixed demo-user id (src/services/cart.ts line 7). -/
def DEMO_USER_ID : String := "550e8400-e29b-41d4-a716-446655440000"

/-- `removeCartItem` (src/services/cart.ts lines 252-278) as a transition on
the `cart_items` table, returning the new table and the boolean result. -/
def removeCartItem (st : List ItemRow) (cartItemId : String) : List ItemRow × Bool :=
  if cartItemId = "" then (st, false)
  else if strContains cartItemId "demo" || !isValidUUID cartItemId then (st, true)
  else (st.filter (fun row => row.id != cartItemId), true)

/-- `updateCartItemQuantity` (src/services/cart.ts lines 284-346): `null` for
negative quantities, a mock item for demo/non-UUID ids, removal at quantity
zero, otherwise an update of the row. -/
def updateCartItemQuantity (st : List ItemRow) (cartItemId : String) (quantity : Int) :
    List ItemRow × Option ItemRow :=
  if cartItemId = "" || quantity < 0 then (st, none)
  else if strContains cartItemId "demo" || !isValidUUID cartItemId then
    (st, some ⟨cartItemId, "demo-cart-id", "demo-product-id", quantity⟩)
  else if quantity = 0 then
    ((removeCartItem st cartItemId).1, none)
  else
    let updated := st.map (fun row =>
      if row.id = cartItemId then { row with quantity := quantity } else row)
    (updated, updated.find? (fun row => row.id == cartItemId))

/-- The authenticated (non-demo) path of `addToCart` (src/services/cart.ts
lines 203-246): `activeCartId` is the id of the active cart `getActiveCart`
returned, `newItemId` the id the backend assigns to a freshly inserted row. -/
def addToCart (st : List ItemRow) (activeCartId productId : String) (quantity : Int)
    (newItemId : String) : List ItemRow × Option ItemRow :=
  if productId = "" then (st, none)
  else
    let items := st.filter (fun row => row.cart_id == activeCartId)
    match items.find? (fun row => row.product_id == productId) with
    | some existingItem =>
      updateCartItemQuantity st existingItem.id (existingItem.quantity + quantity)
    | none =>
      let newRow : ItemRow := ⟨newItemId, activeCartId, productId, quantity⟩
      (st ++ [newRow], some newRow)

/-- `checkoutCart` (src/services/cart.ts lines 352-385): demo/non-UUID ids
succeed with no backend write; otherwise the cart row's status, checkout
time and payment method are updated (`backendError` models the update being
rejected, in which case the state is unchanged and `false` is returned). -/
def checkoutCart (st : DBState) (now : String) (cartId paymentMethod : String)
    (backendError : Bool) : DBState × Bool :=
  if cartId = "" then (st, false)
  else if strContains cartId "demo" || !isValidUUID cartId then (st, true)
  else if backendError then (st, false)
  else
    ({ st with carts := st.carts.map (fun c =>
        if c.id = cartId then
          { c with status := "completed", checkout_at := some now,
                   payment_method := some paymentMethod }
        else c) }, true)

/-! ### getActiveCart with an explicit backend oracle -/

/-- Outcome of a backend call: a value or an error code/message. -/
inductive DBResult (α : Type) where
  | ok : α → DBResult α
  | err : String → DBResult α
deriving DecidableEq

/-- The responses of the backend queries `getActiveCart` issues. -/
structure CartBackend where
  /-- the active-cart query with `.single()`: error code, or (possibly
  absent) cart row -/
  activeCartQuery : DBResult (Option CartRow)
  /-- the cart-items query for a given cart id -/
  itemsQuery : String → DBResult (List ItemRow)
  /-- the insert of a fresh cart row in `createCart` -/
  createCartInsert : DBResult CartRow

/-- A cart as assembled by the service: its row plus its items. -/
structure CartView where
  row : CartRow
  items : List ItemRow
deriving DecidableEq

/-- `createMockCartForDemoUser` (src/services/cart.ts lines 111-121). -/
def createMockCartForDemoUser (now : String) : CartView :=
  ⟨⟨"demo-cart-id", DEMO_USER_ID, "active", now, now, none, none⟩, []⟩

/-- `createCart` (src/services/cart.ts lines 126-151). -/
def createCart (be : CartBackend) (userId : String) : DBResult CartView :=
  if userId = "" then .err "No userId provided"
  else
    match be.createCartInsert with
    | .err m => .err m
    | .ok row => .ok ⟨row, []⟩

/-- `getActiveCart` (src/services/cart.ts lines 28-106): `.ok none` models
returning `null`, `.err` a thrown error. Every failure path of the demo
user collapses to the mock cart via the demo branches and the surrounding
catch. -/
def getActiveCart (be : CartBackend) (now : String) (userId : String) :
    DBResult (Option CartView) :=
  if userId = "" then .ok none
  else
    let result : DBResult (Option CartView) :=
      match be.activeCartQuery with
      | .err code =>
        if userId = DEMO_USER_ID then .ok (some (createMockCartForDemoUser now))
        else if code = "PGRST116" then
          match createCart be userId with
          | .err m => .err m
          | .ok c => .ok (some c)
        else .err code
      | .ok none =>
        if userId = DEMO_USER_ID then .ok (some (createMockCartForDemoUser now))
        else
          match createCart be userId with
          | .err m => .err m
          | .ok c => .ok (some c)
      | .ok (some cartData) =>
        match be.itemsQuery cartData.id with
        | .err msg =>
          if userId = DEMO_USER_ID then .ok (some (createMockCartForDemoUser now))
          else .err msg
        | .ok itemsData => .ok (some ⟨cartData, itemsData⟩)
    match result with
    | .err e =>
      if userId = DEMO_USER_ID then .ok (some (createMockCartForDemoUser now))
      else .err e
    | r => r

/-! ### The hook's demo-mode quantity update and the cart totals -/

/-- The hook's local cart (only the fields the embedded operations touch). -/
structure HookCart where
  id : String
  items : List ItemRow
  updated_at : String
deriving DecidableEq

/-- The demo-user branch of the hook's `updateItemQuantity`
(src/hooks/useCart.ts lines 432-455): quantity at most zero removes the
item, otherwise the item at the found index is updated. -/
def updateItemQuantityDemo (cart : HookCart) (cartItemId : String) (quantity : Int)
    (now : String) : HookCart × Option ItemRow :=
  match cart.items.findIdx? (fun item => item.id == cartItemId) with
  | none => (cart, none)
  | some itemIndex =>
    if quantity ≤ 0 then
      ({ cart with items := cart.items.filter (fun item => item.id != cartItemId),
                   updated_at := now }, none)
    else
      match cart.items.get? itemIndex with
      | none => (cart, none)
      | some item =>
        let newItems := cart.items.set itemIndex { item with quantity := quantity }
        ({ cart with items := newItems, updated_at := now }, newItems.get? itemIndex)

/-- The product attached to a cart item as `getCartTotals` sees it; `none`
for `price` models a runtime value with `typeof price` not `'number'`. -/
structure TotalsProduct where
  price : Option ℚ
deriving DecidableEq

/-- A cart item as `getCartTotals` sees it (`product` may be `null`). -/
structure TotalsItem where
  quantity : Int
  product : Option TotalsProduct
deriving DecidableEq

/-- The cart as `getCartTotals` sees it. -/
structure TotalsCart where
  items : List TotalsItem
deriving DecidableEq

/-- The record `getCartTotals` returns. -/
structure CartTotals where
  subtotal : ℚ
  tax : ℚ
  total : ℚ
  itemCount : Int
deriving DecidableEq

/-- `getCartTotals` (src/hooks/useCart.ts lines 557-585). -/
def getCartTotals (cart : Option TotalsCart) : CartTotals :=
  match cart with
  | none => ⟨0, 0, 0, 0⟩
  | some c =>
    if c.items.isEmpty then ⟨0, 0, 0, 0⟩
    else
      let subtotal := c.items.foldl (fun acc item =>
        match item.product with
        | none => acc
        | some product =>
          match product.price with
          | none => acc
          | some price => acc + price * (item.quantity : ℚ)) 0
      let tax := subtotal * (8/100)
      let total := subtotal + tax
      let itemCount := c.items.foldl (fun acc item => acc + item.quantity) 0
      ⟨subtotal, tax, total, itemCount⟩

/-- One item's contribution to the subtotal: price times quantity when the
product is present with a numeric price, zero otherwise. -/
def itemSubtotal (item : TotalsItem) : ℚ :=
  match item.product with
  | none => 0
  | some product =>
    match product.price with
    | none => 0
    | some price => price * (item.quantity : ℚ)

/-! ### Helper lemmas -/

theorem listPrefixOf_subset {sub l : List Char} (h : listPrefixOf sub l = true) :
    ∀ c ∈ sub, c ∈ l := by
  induction sub generalizing l with
  | nil => intro c hc; cases hc
  | cons a as ih =>
    cases l with
    | nil => simp [listPrefixOf] at h
    | cons b bs =>
      simp only [listPrefixOf, Bool.and_eq_true, decide_eq_true_eq] at h
      intro c hc
      rcases List.mem_cons.mp hc with rfl | hc
      · exact h.1 ▸ List.mem_cons_self _ _
      · exact List.mem_cons_of_mem _ (ih h.2 c hc)

theorem listInfixOf_subset {sub l : List Char} (h : listInfixOf sub l = true) :
    ∀ c ∈ sub, c ∈ l := by
  induction l with
  | nil =>
    simp only [listInfixOf, List.isEmpty_iff] at h
    subst h; intro c hc; cases hc
  | cons b bs ih =>
    simp only [listInfixOf, Bool.or_eq_true] at h
    rcases h with h | h
    · exact listPrefixOf_subset h
    · intro c hc; exact List.mem_cons_of_mem _ (ih h c hc)

theorem strContains_subset {s sub : String} (h : strContains s sub = true) :
    ∀ c ∈ sub.toList, c ∈ s.toList :=
  listInfixOf_subset h

theorem splitOnDash_ne_nil (l : List Char) : splitOnDash l ≠ [] := by
  cases l with
  | nil => simp [splitOnDash]
  | cons c rest =>
    simp only [splitOnDash]
    split
    · simp
    · split <;> simp

theorem mem_splitOnDash {l : List Char} {c : Char} (hc : c ∈ l) :
    (∃ g ∈ splitOnDash l, c ∈ g) ∨ c = '-' := by
  induction l with
  | nil => cases hc
  | cons b rest ih =>
    rcases List.mem_cons.mp hc with rfl | hc
    · by_cases hb : c = '-'
      · exact Or.inr hb
      · left
        simp only [splitOnDash, if_neg hb]
        rcases hg : splitOnDash rest with _ | ⟨g, gs⟩
        · exact absurd hg (splitOnDash_ne_nil rest)
        · exact ⟨c :: g, List.mem_cons_self _ _, List.mem_cons_self _ _⟩
    · rcases ih hc with ⟨g, hg, hcg⟩ | h
      · left
        simp only [splitOnDash]
        split
        · exact ⟨g, List.mem_cons_of_mem _ hg, hcg⟩
        · rcases hsp : splitOnDash rest with _ | ⟨g0, gs⟩
          · exact absurd hsp (splitOnDash_ne_nil rest)
          · rw [hsp] at hg
            rcases List.mem_cons.mp hg with rfl | hg
            · exact ⟨b :: g, List.mem_cons_self _ _, List.mem_cons_of_mem _ hcg⟩
            · exact ⟨g, List.mem_cons_of_mem _ hg, hcg⟩
      · exact Or.inr h

theorem validUUID_chars {s : String} (h : isValidUUID s = true) :
    ∀ c ∈ s.toList, isHexDigit c = true ∨ c = '-' := by
  intro c hc
  rcases mem_splitOnDash hc with ⟨g, hg, hcg⟩ | hdash
  · left
    unfold isValidUUID at h
    rcases hsp : splitOnDash s.toList with _ | ⟨a, _ | ⟨b, _ | ⟨x, _ | ⟨d, _ | ⟨e, _ | _⟩⟩⟩⟩⟩ <;>
      rw [hsp] at h
    case nil => exact absurd h (by simp)
    case cons.nil => exact absurd h (by simp)
    case cons.cons.nil => exact absurd h (by simp)
    case cons.cons.cons.nil => exact absurd h (by simp)
    case cons.cons.cons.cons.nil => exact absurd h (by simp)
    case cons.cons.cons.cons.cons.cons => exact absurd h (by simp)
    case cons.cons.cons.cons.cons.nil =>
      simp only [Bool.and_eq_true, List.all_eq_true, decide_eq_true_eq] at h
      rw [hsp] at hg
      have hmem : c ∈ a ++ b ++ x ++ d ++ e := by
        simp only [List.mem_append]
        rcases List.mem_cons.mp hg with rfl | hg
        · exact Or.inl (Or.inl (Or.inl (Or.inl hcg)))
        rcases List.mem_cons.mp hg with rfl | hg
        · exact Or.inl (Or.inl (Or.inl (Or.inr hcg)))
        rcases List.mem_cons.mp hg with rfl | hg
        · exact Or.inl (Or.inl (Or.inr hcg))
        rcases List.mem_cons.mp hg with rfl | hg
        · exact Or.inl (Or.inr hcg)
        rcases List.mem_cons.mp hg with rfl | hg
        · exact Or.inr hcg
        · cases hg
      exact h.2 c hmem
  · exact Or.inr hdash

theorem validUUID_not_demo {s : String} (h : isValidUUID s = true) :
    strContains s "demo" = false := by
  by_contra hcontra
  rw [Bool.not_eq_false] at hcontra
  have hm : 'm' ∈ s.toList := strContains_subset hcontra 'm' (by decide)
  rcases validUUID_chars h 'm' hm with hh | hh
  · exact absurd hh (by decide)
  · exact absurd hh (by decide)

theorem validUUID_ne_empty {s : String} (h : isValidUUID s = true) : s ≠ "" := by
  intro he; subst he; simp [isValidUUID, splitOnDash] at h

theorem find?_eq_filter_head? {α} (p : α → Bool) (l : List α) :
    l.find? p = (l.filter p).head? := by
  induction l with
  | nil => rfl
  | cons x xs ih =>
    by_cases hx : p x
    · simp [List.find?_cons, List.filter_cons, hx]
    · rw [List.find?_cons_of_neg _ hx, List.filter_cons_of_neg hx]
      exact ih

theorem filter_map_comm {α} (f : α → α) (p : α → Bool) (l : List α)
    (h : ∀ a, p (f a) = p a) : (l.map f).filter p = (l.filter p).map f := by
  induction l with
  | nil => rfl
  | cons x xs ih =>
    by_cases hx : p x
    · simp [List.filter_cons, h, hx, ih]
    · simp only [List.map_cons, List.filter_cons, h x, hx, Bool.false_eq_true, if_false]
      exact ih

theorem foldl_count_eq_sum (l : List TotalsItem) (a : Int) :
    l.foldl (fun acc item => acc + item.quantity) a = a + (l.map (·.quantity)).sum := by
  induction l generalizing a with
  | nil => simp
  | cons x xs ih => simp [ih, add_assoc]

theorem foldl_subtotal_eq_sum (l : List TotalsItem) (a : ℚ) :
    l.foldl (fun acc item =>
      match item.product with
      | none => acc
      | some product =>
        match product.price with
        | none => acc
        | some price => acc + price * (item.quantity : ℚ)) a
      = a + (l.map itemSubtotal).sum := by
  induction l generalizing a with
  | nil => simp
  | cons x xs ih =>
    rcases x with ⟨q, _ | ⟨_ | pr⟩⟩
    · simpa [itemSubtotal] using ih a
    · simpa [itemSubtotal] using ih a
    · simp [itemSubtotal, ih, add_assoc]

/-! ### Claims -/

/-- C5: `normalizeLabel` lower-cases and trims its input and strips exactly
one trailing "s" unless the whole normalized word is in the exception list;
in particular "Apples" maps to "apple" and "Grapes" to "grapes", and
whenever the lower-cased trimmed form does not end in "s" or is in the
exception list, the result is exactly that form. -/
theorem C5_normalizeLabel_spec :
    normalizeLabel "Apples" = "apple" ∧ normalizeLabel "Grapes" = "grapes" ∧
    (∀ s : String,
      (strEndsWith (jsToLower (jsTrim s)) "s" = false ∨
        pluralExceptions.contains (jsToLower (jsTrim s)) = true) →
      normalizeLabel s = jsToLower (jsTrim s)) ∧
    (∀ s : String,
      strEndsWith (jsToLower (jsTrim s)) "s" = true →
      pluralExceptions.contains (jsToLower (jsTrim s)) = false →
      normalizeLabel s = dropLastStr (jsToLower (jsTrim s))) := by
  refine ⟨by decide, by decide, ?_, ?_⟩
  · intro s h
    simp only [normalizeLabel]
    rcases h with h | h
    · rw [h, Bool.false_and]
      rfl
    · rw [h, Bool.not_true, Bool.and_false]
      rfl
  · intro s h1 h2
    simp only [normalizeLabel]
    rw [h1, h2, Bool.not_false, Bool.and_true]
    rfl

/-- Witness for C5 at the concrete inputs "banana" (no trailing "s") and
"Apples" (trailing "s", not in the exception list). -/
theorem C5_normalizeLabel_spec_witness :
    (strEndsWith (jsToLower (jsTrim "banana")) "s" = false ∨
      pluralExceptions.contains (jsToLower (jsTrim "banana")) = true) ∧
    strEndsWith (jsToLower (jsTrim "Apples")) "s" = true ∧
    pluralExceptions.contains (jsToLower (jsTrim "Apples")) = false ∧
    normalizeLabel "banana" = jsToLower (jsTrim "banana") ∧
    normalizeLabel "Apples" = dropLastStr (jsToLower (jsTrim "Apples")) :=
  ⟨Or.inl (by decide), by decide, by decide,
   C5_normalizeLabel_spec.2.2.1 "banana" (Or.inl (by decide)),
   C5_normalizeLabel_spec.2.2.2 "Apples" (by decide) (by decide)⟩

/-- C9: a non-empty id that is not a well-formed UUID or contains "demo"
makes `removeCartItem` and `checkoutCart` report success while leaving the
persisted state untouched. -/
theorem C9_malformed_id_silent_success (items : List ItemRow) (st : DBState)
    (id now method : String) (backendError : Bool)
    (hne : id ≠ "")
    (hmal : isValidUUID id = false ∨ strContains id "demo" = true) :
    removeCartItem items id = (items, true) ∧
    checkoutCart st now id method backendError = (st, true) := by
  have hguard : (strContains id "demo" || !isValidUUID id) = true := by
    rcases hmal with h | h <;> simp [h]
  constructor
  · simp [removeCartItem, hne, hguard]
  · simp [checkoutCart, hne, hguard]

/-- Witness for C9 at the malformed id "not-a-uuid" and the demo id
"demo-cart-id". -/
theorem C9_malformed_id_silent_success_witness :
    ("not-a-uuid" : String) ≠ "" ∧ isValidUUID "not-a-uuid" = false ∧
    removeCartItem [⟨"a", "b", "c", 1⟩] "not-a-uuid" = ([⟨"a", "b", "c", 1⟩], true) ∧
    checkoutCart ⟨[], []⟩ "T" "demo-cart-id" "credit_card" true = (⟨[], []⟩, true) :=
  ⟨by decide, by decide,
   (C9_malformed_id_silent_success [⟨"a", "b", "c", 1⟩] ⟨[], []⟩ "not-a-uuid" "T"
     "credit_card" true (by decide) (Or.inl (by decide))).1,
   (C9_malformed_id_silent_success [] ⟨[], []⟩ "demo-cart-id" "T"
     "credit_card" true (by decide) (Or.inr (by decide))).2⟩

/-- C10: `getCartTotals` returns the sum of quantities as the item count, the
sum of price times quantity over items whose product has a numeric price as
the subtotal (missing products contribute zero), tax 0.08 times the
subtotal, and total = subtotal + tax; a null cart and an empty item list
yield all zeros. -/
theorem C10_getCartTotals_spec (cart : Option TotalsCart) :
    getCartTotals none = ⟨0, 0, 0, 0⟩ ∧
    (getCartTotals cart).subtotal
      = (((cart.map (·.items)).getD []).map itemSubtotal).sum ∧
    (getCartTotals cart).itemCount
      = (((cart.map (·.items)).getD []).map (·.quantity)).sum ∧
    (getCartTotals cart).tax = (8/100) * (getCartTotals cart).subtotal ∧
    (getCartTotals cart).total
      = (getCartTotals cart).subtotal + (getCartTotals cart).tax := by
  refine ⟨rfl, ?_⟩
  cases cart with
  | none => simp [getCartTotals]
  | some c =>
    by_cases h : c.items.isEmpty
    · rw [List.isEmpty_iff] at h
      simp [getCartTotals, h]
    · have h' : c.items.isEmpty = false := by simp [h]
      simp only [getCartTotals, h', Bool.false_eq_true, if_false, Option.map_some',
        Option.getD_some]
      rw [foldl_subtotal_eq_sum, foldl_count_eq_sum]
      refine ⟨by rw [zero_add], by rw [zero_add], by rw [Rat.mul_comm], trivial⟩

/-- C8: for the demo user id, `getActiveCart` never propagates a backend
error: it always returns a cart, and on a failing cart query or a failing
items query it returns the locally synthesized active cart with an empty
item list. -/
theorem C8_getActiveCart_demo_fallback (be : CartBackend) (now : String) :
    (∃ r, getActiveCart be now DEMO_USER_ID = .ok r) ∧
    (∀ code, be.activeCartQuery = .err code →
      getActiveCart be now DEMO_USER_ID = .ok (some (createMockCartForDemoUser now))) ∧
    (∀ cartData msg, be.activeCartQuery = .ok (some cartData) →
      be.itemsQuery cartData.id = .err msg →
      getActiveCart be now DEMO_USER_ID = .ok (some (createMockCartForDemoUser now))) ∧
    (createMockCartForDemoUser now).row.status = "active" ∧
    (createMockCartForDemoUser now).items = [] := by
  have hne : DEMO_USER_ID ≠ "" := by decide
  refine ⟨?_, ?_, ?_, rfl, rfl⟩
  · rcases hq : be.activeCartQuery with ⟨_ | cartData⟩ | code
    · exact ⟨some (createMockCartForDemoUser now), by simp [getActiveCart, hne, hq]⟩
    · rcases hi : be.itemsQuery cartData.id with items | msg
      · exact ⟨some ⟨cartData, items⟩, by simp [getActiveCart, hne, hq, hi]⟩
      · exact ⟨some (createMockCartForDemoUser now), by simp [getActiveCart, hne, hq, hi]⟩
    · exact ⟨some (createMockCartForDemoUser now), by simp [getActiveCart, hne, hq]⟩
  · intro code hq
    simp [getActiveCart, hne, hq]
  · intro cartData msg hq hi
    simp [getActiveCart, hne, hq, hi]

/-- Witness for C8 at a backend whose cart query fails and a backend whose
items query fails. -/
theorem C8_getActiveCart_demo_fallback_witness :
    (⟨.err "permission denied", fun _ => .ok [], .err "x"⟩ : CartBackend).activeCartQuery
      = .err "permission denied" ∧
    getActiveCart ⟨.err "permission denied", fun _ => .ok [], .err "x"⟩ "T" DEMO_USER_ID
      = .ok (some (createMockCartForDemoUser "T")) ∧
    getActiveCart
      ⟨.ok (some ⟨"c1", DEMO_USER_ID, "active", "T", "T", none, none⟩),
        fun _ => .err "items boom", .err "x"⟩ "T" DEMO_USER_ID
      = .ok (some (createMockCartForDemoUser "T")) :=
  ⟨rfl,
   (C8_getActiveCart_demo_fallback ⟨.err "permission denied", fun _ => .ok [], .err "x"⟩
     "T").2.1 "permission denied" rfl,
   (C8_getActiveCart_demo_fallback
     ⟨.ok (some ⟨"c1", DEMO_USER_ID, "active", "T", "T", none, none⟩),
       fun _ => .err "items boom", .err "x"⟩ "T").2.2.1
     ⟨"c1", DEMO_USER_ID, "active", "T", "T", none, none⟩ "items boom" rfl rfl⟩

/-- C1 as stated is false: for a valid-UUID item id present in the table with
quantity 2, calling `updateCartItemQuantity` with quantity -1 returns null
and leaves the item in the cart's item list, so it is still there on the
next read. -/
theorem C1_counterexample :
    ((updateCartItemQuantity [⟨"11111111-2222-4333-8444-555555555555", "c1", "p1", 2⟩]
        "11111111-2222-4333-8444-555555555555" (-1)).1.find?
      (fun row => row.id == "11111111-2222-4333-8444-555555555555")).isSome = true ∧
    (updateCartItemQuantity [⟨"11111111-2222-4333-8444-555555555555", "c1", "p1", 2⟩]
        "11111111-2222-4333-8444-555555555555" (-1)).2 = none := by
  constructor
  · rfl
  · rfl

/-- C1 amended: for quantity 0 (and a valid-UUID, non-demo item id)
`updateCartItemQuantity` removes the item, which is absent on the next read;
for every negative quantity it is a no-op returning null, leaving the item
in place. The hook's demo-mode `updateItemQuantity` removes the item for
every quantity at most 0. -/
theorem C1_amended_quantity_semantics (st : List ItemRow) (cart : HookCart)
    (iid now : String) (q : Int)
    (hvalid : isValidUUID iid = true) :
    ((updateCartItemQuantity st iid 0).1.filter (fun row => row.id == iid) = []) ∧
    (q < 0 → updateCartItemQuantity st iid q = (st, none)) ∧
    (q ≤ 0 → (updateItemQuantityDemo cart iid q now).1.items.filter
      (fun item => item.id == iid) = []) := by
  have hne : iid ≠ "" := validUUID_ne_empty hvalid
  have hdemo : strContains iid "demo" = false := validUUID_not_demo hvalid
  have hguard : (strContains iid "demo" || !isValidUUID iid) = false := by
    simp [hdemo, hvalid]
  refine ⟨?_, ?_, ?_⟩
  · have hstep : updateCartItemQuantity st iid 0
        = (st.filter (fun row => row.id != iid), none) := by
      simp [updateCartItemQuantity, removeCartItem, hne, hguard]
    rw [hstep]
    rw [List.filter_filter]
    apply List.filter_eq_nil_iff.mpr
    intro a _
    by_cases ha : a.id = iid <;> simp [ha]
  · intro hq
    have hcond : (decide (iid = "") || decide (q < 0)) = true := by simp [hq]
    simp only [updateCartItemQuantity, hcond, if_true]
  · intro hq
    simp only [updateItemQuantityDemo]
    rcases hidx : cart.items.findIdx? (fun item => item.id == iid) with _ | idx
    · rw [hidx]
      have hnone := List.findIdx?_eq_none_iff.mp hidx
      apply List.filter_eq_nil_iff.mpr
      intro item hmem hbeq
      exact absurd (hnone item hmem) (by simp [hbeq])
    · simp only [hidx, hq, if_true]
      rw [List.filter_filter]
      apply List.filter_eq_nil_iff.mpr
      intro a _
      by_cases ha : a.id = iid <;> simp [ha]

/-- Witness for C1's amended claim at a concrete one-item table. -/
theorem C1_amended_quantity_semantics_witness :
    isValidUUID "11111111-2222-4333-8444-555555555555" = true ∧
    ((updateCartItemQuantity [⟨"11111111-2222-4333-8444-555555555555", "c1", "p1", 2⟩]
        "11111111-2222-4333-8444-555555555555" 0).1.filter
      (fun row => row.id == "11111111-2222-4333-8444-555555555555") = []) ∧
    updateCartItemQuantity [⟨"11111111-2222-4333-8444-555555555555", "c1", "p1", 2⟩]
        "11111111-2222-4333-8444-555555555555" (-2)
      = ([⟨"11111111-2222-4333-8444-555555555555", "c1", "p1", 2⟩], none) ∧
    ((updateItemQuantityDemo
        ⟨"hc", [⟨"11111111-2222-4333-8444-555555555555", "hc", "p1", 2⟩], "T"⟩
        "11111111-2222-4333-8444-555555555555" 0 "T2").1.items.filter
      (fun item => item.id == "11111111-2222-4333-8444-555555555555") = []) := by
  have h := C1_amended_quantity_semantics
    [⟨"11111111-2222-4333-8444-555555555555", "c1", "p1", 2⟩]
    ⟨"hc", [⟨"11111111-2222-4333-8444-555555555555", "hc", "p1", 2⟩], "T"⟩
    "11111111-2222-4333-8444-555555555555" "T2" (-2) (by decide)
  exact ⟨by decide, h.1, h.2.1 (by decide),
    (C1_amended_quantity_semantics
      [⟨"11111111-2222-4333-8444-555555555555", "c1", "p1", 2⟩]
      ⟨"hc", [⟨"11111111-2222-4333-8444-555555555555", "hc", "p1", 2⟩], "T"⟩
      "11111111-2222-4333-8444-555555555555" "T2" 0 (by decide)).2.2 (by decide)⟩

/-- C7: a successful `checkoutCart` on a well-formed cart id returns true,
leaves the `cart_items` table untouched, and rewrites only the matching cart
row, setting exactly its status, checkout time and payment method while
preserving its other fields; every non-matching cart row is unchanged. -/
theorem C7_checkoutCart_frame (st : DBState) (now cartId paymentMethod : String)
    (hvalid : isValidUUID cartId = true) :
    (checkoutCart st now cartId paymentMethod false).2 = true ∧
    (checkoutCart st now cartId paymentMethod false).1.cart_items = st.cart_items ∧
    List.Forall₂ (fun c c' : CartRow =>
        c'.id = c.id ∧ c'.user_id = c.user_id ∧ c'.created_at = c.created_at ∧
        c'.updated_at = c.updated_at ∧
        (if c.id = cartId then
          c'.status = "completed" ∧ c'.checkout_at = some now ∧
            c'.payment_method = some paymentMethod
         else c' = c))
      st.carts (checkoutCart st now cartId paymentMethod false).1.carts := by
  have hne : cartId ≠ "" := validUUID_ne_empty hvalid
  have hdemo : strContains cartId "demo" = false := validUUID_not_demo hvalid
  have hguard : (strContains cartId "demo" || !isValidUUID cartId) = false := by
    simp [hdemo, hvalid]
  have hstep : checkoutCart st now cartId paymentMethod false
      = ({ st with carts := st.carts.map (fun c =>
          if c.id = cartId then
            { c with status := "completed", checkout_at := some now,
                     payment_method := some paymentMethod }
          else c) }, true) := by
    simp [checkoutCart, hne, hguard]
  rw [hstep]
  refine ⟨rfl, rfl, ?_⟩
  rw [List.forall₂_map_right_iff]
  apply List.forall₂_same.mpr
  intro c _
  by_cases hc : c.id = cartId
  · simp [hc]
  · simp [hc]

/-- Witness for C7 at a two-cart state where one cart matches the id. -/
theorem C7_checkoutCart_frame_witness :
    isValidUUID "22222222-3333-4444-8555-666666666666" = true ∧
    (checkoutCart
      ⟨[⟨"22222222-3333-4444-8555-666666666666", "u1", "active", "T0", "T0", none, none⟩,
        ⟨"99999999-3333-4444-8555-666666666666", "u2", "active", "T0", "T0", none, none⟩],
        [⟨"i1", "22222222-3333-4444-8555-666666666666", "p1", 1⟩]⟩
      "T1" "22222222-3333-4444-8555-666666666666" "credit_card" false).2 = true ∧
    (checkoutCart
      ⟨[⟨"22222222-3333-4444-8555-666666666666", "u1", "active", "T0", "T0", none, none⟩,
        ⟨"99999999-3333-4444-8555-666666666666", "u2", "active", "T0", "T0", none, none⟩],
        [⟨"i1", "22222222-3333-4444-8555-666666666666", "p1", 1⟩]⟩
      "T1" "22222222-3333-4444-8555-666666666666" "credit_card" false).1.cart_items
      = [⟨"i1", "22222222-3333-4444-8555-666666666666", "p1", 1⟩] := by
  have h := C7_checkoutCart_frame
    ⟨[⟨"22222222-3333-4444-8555-666666666666", "u1", "active", "T0", "T0", none, none⟩,
      ⟨"99999999-3333-4444-8555-666666666666", "u2", "active", "T0", "T0", none, none⟩],
      [⟨"i1", "22222222-3333-4444-8555-666666666666", "p1", 1⟩]⟩
    "T1" "22222222-3333-4444-8555-666666666666" "credit_card" (by decide)
  exact ⟨by decide, h.1, h.2.1⟩

/-- C2: when the active cart contains exactly one item row for the product,
with quantity at least 1, adding the product with a quantity at least 1
updates that row to the summed quantity, creates no second row for the
(cart, product) pair, and leaves the table's length unchanged. -/
theorem C2_addToCart_increments (st : List ItemRow) (cartId pid newId : String)
    (r0 : ItemRow) (q : Int)
    (hpid : pid ≠ "")
    (hq : 1 ≤ q)
    (hr0q : 1 ≤ r0.quantity)
    (hid : isValidUUID r0.id = true)
    (huniq : (st.filter (fun row => row.cart_id == cartId)).filter
      (fun row => row.product_id == pid) = [r0]) :
    ((addToCart st cartId pid q newId).1.filter (fun row => row.cart_id == cartId)).filter
        (fun row => row.product_id == pid)
      = [{ r0 with quantity := r0.quantity + q }] ∧
    (addToCart st cartId pid q newId).1.length = st.length := by
  have hfind : (st.filter (fun row => row.cart_id == cartId)).find?
      (fun row => row.product_id == pid) = some r0 := by
    rw [find?_eq_filter_head?, huniq]
    rfl
  have hidne : r0.id ≠ "" := validUUID_ne_empty hid
  have hdemo : strContains r0.id "demo" = false := validUUID_not_demo hid
  have hguard : (strContains r0.id "demo" || !isValidUUID r0.id) = false := by
    simp [hdemo, hid]
  have hqpos : ¬(r0.quantity + q < 0) := by omega
  have hqne : ¬(r0.quantity + q = 0) := by omega
  have hcond : (decide (r0.id = "") || decide (r0.quantity + q < 0)) = false := by
    simp [hidne, hqpos]
  simp only [addToCart, hpid, if_neg hpid, hfind, updateCartItemQuantity, hcond,
    Bool.false_eq_true, if_false, hguard, if_neg hqne]
  set f : ItemRow → ItemRow := fun row =>
    if row.id = r0.id then { row with quantity := r0.quantity + q } else row with hf
  have hcartf : ∀ row : ItemRow, ((f row).cart_id == cartId) = (row.cart_id == cartId) := by
    intro row
    by_cases hr : row.id = r0.id <;> simp [hf, hr]
  have hpidf : ∀ row : ItemRow, ((f row).product_id == pid) = (row.product_id == pid) := by
    intro row
    by_cases hr : row.id = r0.id <;> simp [hf, hr]
  constructor
  · rw [filter_map_comm f _ _ hcartf, filter_map_comm f _ _ hpidf, huniq]
    simp [hf]
  · simp

/-- Witness for C2 at a one-row table holding the product with quantity 2,
adding 3 more. -/
theorem C2_addToCart_increments_witness :
    isValidUUID "11111111-1111-4111-8111-111111111111" = true ∧
    (([⟨"11111111-1111-4111-8111-111111111111", "c1", "p1", 2⟩] :
        List ItemRow).filter (fun row => row.cart_id == "c1")).filter
      (fun row => row.product_id == "p1")
      = [⟨"11111111-1111-4111-8111-111111111111", "c1", "p1", 2⟩] ∧
    ((addToCart [⟨"11111111-1111-4111-8111-111111111111", "c1", "p1", 2⟩]
        "c1" "p1" 3 "n1").1.filter (fun row => row.cart_id == "c1")).filter
      (fun row => row.product_id == "p1")
      = [⟨"11111111-1111-4111-8111-111111111111", "c1", "p1", 5⟩] := by
  have h := C2_addToCart_increments
    [⟨"11111111-1111-4111-8111-111111111111", "c1", "p1", 2⟩] "c1" "p1" "n1"
    ⟨"11111111-1111-4111-8111-111111111111", "c1", "p1", 2⟩ 3
    (by decide) (by decide) (by decide) (by decide) (by decide)
  exact ⟨by decide, by decide, h.1⟩

theorem head?_filter_prop {α} {p : α → Bool} {l : List α} (h : l.filter p ≠ []) :
    ∃ a, (l.filter p).head? = some a ∧ p a = true := by
  rcases hl : l.filter p with _ | ⟨a, as⟩
  · exact absurd hl h
  · exact ⟨a, rfl, List.of_mem_filter (hl ▸ List.mem_cons_self a as)⟩

/-- C6 as stated is false for `findBestProductMatch`: a catalog whose only
product has category "Fruit" (no exact, substring or per-word match for the
label "fruit") makes the matcher return none, because its fallback filters
for the category lower-casing to "fruits" and there is no vegetable fallback
at all. -/
theorem C6_counterexample :
    findBestProductMatch [⟨"p1", "zzz", "", 1, "", "", "Fruit"⟩] "fruit" = none ∧
    ([(⟨"p1", "zzz", "", 1, "", "", "Fruit"⟩ : Product)].filter
      (fun p => p.category == "Fruit")) ≠ [] ∧
    strContains (normalizeLabel "fruit") "fruit" = true ∧
    ([(⟨"p1", "zzz", "", 1, "", "", "Fruit"⟩ : Product)].find?
      (fun p => normalizeLabel p.name == normalizeLabel "fruit")) = none ∧
    ([(⟨"p1", "zzz", "", 1, "", "", "Fruit"⟩ : Product)].filter (fun p =>
      strContains (normalizeLabel p.name) (normalizeLabel "fruit") ||
      strContains (normalizeLabel "fruit") (normalizeLabel p.name))) = [] := by
  refine ⟨by decide, by decide, by decide, by decide, by decide⟩

/-- C6 amended: `getProductFromDatabase` satisfies the claim as stated, for
"fruit" with category "Fruit" and for "vegetable" with category "Vegetable"
(each compared lower-cased); `findBestProductMatch`'s fallback instead
requires a product whose category lower-cases to "fruits" and has no
vegetable fallback. -/
theorem C6_amended_category_fallback :
    (∀ (env : MatchEnv) (label : String),
      env.nameQuery (normalizeLabel label) = [] →
      env.allProducts ≠ [] →
      env.allProducts.find? (fun product =>
        jsToLower product.name == normalizeLabel label) = none →
      env.allProducts.filter (fun product =>
        strContains (jsToLower product.name) (normalizeLabel label) ||
        strContains (normalizeLabel label) (jsToLower product.name)) = [] →
      ((splitWs (normalizeLabel label)).filter (fun word => 3 < word.length)).findSome?
        (fun word => if matchStopwords.contains (jsToLower word) then none
          else env.allProducts.find? (fun product =>
            strContains (jsToLower product.name) word)) = none →
      strContains (normalizeLabel label) "fruit" = true →
      env.allProducts.filter (fun product => jsToLower product.category == "fruit") ≠ [] →
      ∃ p, getProductFromDatabase env label = some p ∧ jsToLower p.category = "fruit") ∧
    (∀ (env : MatchEnv) (label : String),
      env.nameQuery (normalizeLabel label) = [] →
      env.allProducts ≠ [] →
      env.allProducts.find? (fun product =>
        jsToLower product.name == normalizeLabel label) = none →
      env.allProducts.filter (fun product =>
        strContains (jsToLower product.name) (normalizeLabel label) ||
        strContains (normalizeLabel label) (jsToLower product.name)) = [] →
      ((splitWs (normalizeLabel label)).filter (fun word => 3 < word.length)).findSome?
        (fun word => if matchStopwords.contains (jsToLower word) then none
          else env.allProducts.find? (fun product =>
            strContains (jsToLower product.name) word)) = none →
      (if strContains (normalizeLabel label) "fruit" then
        (env.allProducts.filter (fun product =>
          jsToLower product.category == "fruit")).head?
       else none) = none →
      strContains (normalizeLabel label) "vegetable" = true →
      env.allProducts.filter (fun product =>
        jsToLower product.category == "vegetable") ≠ [] →
      ∃ p, getProductFromDatabase env label = some p ∧ jsToLower p.category = "vegetable") ∧
    (∀ (db : List Product) (label : String),
      db ≠ [] →
      db.find? (fun p => normalizeLabel p.name == normalizeLabel label) = none →
      db.filter (fun p =>
        strContains (normalizeLabel p.name) (normalizeLabel label) ||
        strContains (normalizeLabel label) (normalizeLabel p.name)) = [] →
      (if strContains (normalizeLabel label) " " then
        ((splitWs (normalizeLabel label)).filter (fun w => 3 < w.length)).findSome?
          (fun word => if wordStopwords.contains word then none
            else (db.filter (fun p =>
              strContains (normalizeLabel p.name) word)).head?)
       else none) = none →
      strContains (normalizeLabel label) "fruit" = true →
      db.filter (fun p => jsToLower p.category == "fruits") ≠ [] →
      ∃ p, findBestProductMatch db label = some p ∧ jsToLower p.category = "fruits") := by
  refine ⟨?_, ?_, ?_⟩
  · intro env label h1 h2 h3 h4 h5 h6 h7
    obtain ⟨p, hp, hpcat⟩ := head?_filter_prop h7
    have h2' : env.allProducts.isEmpty = false := by
      simpa [List.isEmpty_iff] using h2
    refine ⟨p, ?_, by simpa using hpcat⟩
    simp only [getProductFromDatabase, h1, h2', h3, h4, h5, h6, hp, List.head?_nil,
      Bool.false_eq_true, if_false, if_true]
  · intro env label h1 h2 h3 h4 h5 h6 h7 h8
    obtain ⟨p, hp, hpcat⟩ := head?_filter_prop h8
    have h2' : env.allProducts.isEmpty = false := by
      simpa [List.isEmpty_iff] using h2
    refine ⟨p, ?_, by simpa using hpcat⟩
    simp only [getProductFromDatabase, h1, h2', h3, h4, h5, h6, h7, hp, List.head?_nil,
      Bool.false_eq_true, if_false, if_true]
  · intro db label h1 h2 h3 h4 h5 h6
    obtain ⟨p, hp, hpcat⟩ := head?_filter_prop h6
    have h1' : db.isEmpty = false := by
      simpa [List.isEmpty_iff] using h1
    refine ⟨p, ?_, by simpa using hpcat⟩
    simp only [findBestProductMatch, h1', h2, h3, h4, h5, hp, List.head?_nil,
      List.length_nil, Bool.false_eq_true, if_false, if_true]
    norm_num

/-- Witness for C6's amended claim at three one-product catalogs: category
"Fruit" with label "fruit", category "Vegetable" with label "vegetable"
(both via `getProductFromDatabase`), and category "Fruits" with label
"fruit" via `findBestProductMatch`. -/
theorem C6_amended_category_fallback_witness :
    (∃ p, getProductFromDatabase ⟨fun _ => [], [⟨"p1", "zzz", "", 1, "", "", "Fruit"⟩]⟩
      "fruit" = some p ∧ jsToLower p.category = "fruit") ∧
    (∃ p, getProductFromDatabase ⟨fun _ => [], [⟨"p2", "qqq", "", 1, "", "", "Vegetable"⟩]⟩
      "vegetable" = some p ∧ jsToLower p.category = "vegetable") ∧
    (∃ p, findBestProductMatch [⟨"p3", "zzz", "", 1, "", "", "Fruits"⟩] "fruit"
      = some p ∧ jsToLower p.category = "fruits") :=
  ⟨C6_amended_category_fallback.1 ⟨fun _ => [], [⟨"p1", "zzz", "", 1, "", "", "Fruit"⟩]⟩
    "fruit" rfl (by decide) (by decide) (by decide) (by decide) (by decide) (by decide),
   C6_amended_category_fallback.2.1
    ⟨fun _ => [], [⟨"p2", "qqq", "", 1, "", "", "Vegetable"⟩]⟩
    "vegetable" rfl (by decide) (by decide) (by decide) (by decide) (by decide)
    (by decide) (by decide),
   C6_amended_category_fallback.2.2 [⟨"p3", "zzz", "", 1, "", "", "Fruits"⟩]
    "fruit" (by decide) (by decide) (by decide) (by decide) (by decide) (by decide)⟩

theorem bgStepV_trace_food (env : MatchEnv) (resp : VisionResponse) :
    ∀ L ∈ (bgStepV env resp).2, isFood L = true := by
  intro L hL
  simp only [bgStepV] at hL
  by_cases hc : (decide (bestGuessLabelOf resp ≠ "") && isFood (bestGuessLabelOf resp)) = true
  · have hfood := (Bool.and_eq_true _ _ |>.mp hc).2
    rcases hm : getProductFromDatabase env (bestGuessLabelOf resp) with _ | p <;>
        simp only [hc, if_true, hm] at hL <;>
      · have := List.mem_singleton.mp hL
        subst this
        exact hfood
  · simp only [Bool.not_eq_true] at hc
    simp only [hc, Bool.false_eq_true, if_false] at hL
    cases hL

theorem tryLabelsV_trace_food (env : MatchEnv) (ls : List LabelAnn) :
    ∀ L ∈ (tryLabelsV env ls).2, isFood L = true := by
  induction ls with
  | nil => intro L hL; cases hL
  | cons l ls ih =>
    intro L hL
    by_cases hf : isFood l.description = true
    · rcases hm : getProductFromDatabase env l.description with _ | p
      · simp only [tryLabelsV, hf, if_true, hm] at hL
        rcases List.mem_cons.mp hL with rfl | hL
        · exact hf
        · exact ih L hL
      · simp only [tryLabelsV, hf, if_true, hm] at hL
        have := List.mem_singleton.mp hL
        subst this
        exact hf
    · simp only [Bool.not_eq_true] at hf
      simp only [tryLabelsV, hf, Bool.false_eq_true, if_false] at hL
      exact ih L hL

theorem tryWebEntitiesV_trace_food (env : MatchEnv) (es : List WebEntity) :
    ∀ L ∈ (tryWebEntitiesV env es).2, isFood L = true := by
  induction es with
  | nil => intro L hL; cases hL
  | cons e es ih =>
    intro L hL
    by_cases hd : e.description.getD "" = ""
    · simp only [tryWebEntitiesV, hd, if_pos rfl] at hL
      exact ih L hL
    · by_cases hf : isFood (e.description.getD "") = true
      · rcases hm : getProductFromDatabase env (e.description.getD "") with _ | p
        · simp only [tryWebEntitiesV, hd, if_neg hd, hf, if_true, hm] at hL
          rcases List.mem_cons.mp hL with rfl | hL
          · exact hf
          · exact ih L hL
        · simp only [tryWebEntitiesV, hd, if_neg hd, hf, if_true, hm] at hL
          have := List.mem_singleton.mp hL
          subst this
          exact hf
      · simp only [Bool.not_eq_true] at hf
        simp only [tryWebEntitiesV, if_neg hd, hf, Bool.false_eq_true, if_false] at hL
        exact ih L hL

theorem tryMatchesC_trace_mem (db : List Product) (ms : List PossibleMatch) :
    ∀ L ∈ (tryMatchesC db ms).2, ∃ m ∈ ms, m.name = L := by
  induction ms with
  | nil => intro L hL; cases hL
  | cons m ms ih =>
    intro L hL
    rcases hm : findBestProductMatch db m.name with _ | p
    · simp only [tryMatchesC, hm] at hL
      rcases List.mem_cons.mp hL with rfl | hL
      · exact ⟨m, List.mem_cons_self _ _, rfl⟩
      · obtain ⟨m', hm', hname⟩ := ih L hL
        exact ⟨m', List.mem_cons_of_mem _ hm', hname⟩
    · simp only [tryMatchesC, hm] at hL
      have := List.mem_singleton.mp hL
      subst this
      exact ⟨m, List.mem_cons_self _ _, rfl⟩

theorem cartPossibleMatches_food (resp : VisionResponse) (bg : String) :
    ∀ m ∈ cartPossibleMatches resp bg, isFood m.name = true := by
  intro m hm
  simp only [cartPossibleMatches, List.mem_append] at hm
  rcases hm with (hm | hm) | hm
  · split at hm
    · next hcond =>
      have := List.mem_singleton.mp hm
      subst this
      exact (Bool.and_eq_true _ _ |>.mp hcond).2
    · cases hm
  · obtain ⟨l, hl, rfl⟩ := List.mem_map.mp hm
    have hl' := List.of_mem_filter (List.mem_of_mem_take hl)
    exact (Bool.and_eq_true _ _ |>.mp hl').2
  · obtain ⟨e, he, rfl⟩ := List.mem_map.mp hm
    have he' := List.of_mem_filter (List.mem_of_mem_take he)
    exact (Bool.and_eq_true _ _ |>.mp he').2

theorem vision_trace_food (env : MatchEnv) (resp : VisionResponse) :
    ∀ L ∈ (recognizeFoodWithVisionV env resp).2, isFood L = true := by
  intro L hL
  have hbg := bgStepV_trace_food env resp
  have hlab := tryLabelsV_trace_food env ((sortLabelsDesc (resp.labelAnns.getD [])).take 3)
  have hweb := tryWebEntitiesV_trace_food env
    (((resp.webDetection.bind (·.webEntities)).getD []).take 3)
  rcases h1 : (bgStepV env resp).1 with _ | it1
  · rcases h2 : (tryLabelsV env ((sortLabelsDesc (resp.labelAnns.getD [])).take 3)).1
        with _ | it2
    · rcases h3 : (tryWebEntitiesV env
          (((resp.webDetection.bind (·.webEntities)).getD []).take 3)).1 with _ | it3
      · simp only [recognizeFoodWithVisionV, h1, h2, h3, List.mem_append] at hL
        rcases hL with (hL | hL) | hL
        · exact hbg L hL
        · exact hlab L hL
        · exact hweb L hL
      · simp only [recognizeFoodWithVisionV, h1, h2, h3, List.mem_append] at hL
        rcases hL with (hL | hL) | hL
        · exact hbg L hL
        · exact hlab L hL
        · exact hweb L hL
    · simp only [recognizeFoodWithVisionV, h1, h2, List.mem_append] at hL
      rcases hL with hL | hL
      · exact hbg L hL
      · exact hlab L hL
  · simp only [recognizeFoodWithVisionV, h1] at hL
    exact hbg L hL

theorem cart_trace_food (db : List Product) (resp : VisionResponse) :
    ∀ L ∈ (recognizeFoodWithVisionCart db resp).2,
      isFood L = true ∨ L = bestGuessLabelOf resp := by
  intro L hL
  have htail : ∀ L' ∈ (tryMatchesC db (sortMatchesDesc
      (cartPossibleMatches resp (bestGuessLabelOf resp)))).2, isFood L' = true := by
    intro L' hL'
    obtain ⟨m, hmem, hname⟩ := tryMatchesC_trace_mem _ _ L' hL'
    have hmem' : m ∈ cartPossibleMatches resp (bestGuessLabelOf resp) := by
      have := (List.mem_insertionSort
        (fun a b : PossibleMatch => b.confidence ≤ a.confidence)).mp hmem
      exact this
    exact hname ▸ cartPossibleMatches_food resp (bestGuessLabelOf resp) m hmem'
  simp only [recognizeFoodWithVisionCart] at hL
  split at hL
  · exact Or.inr (List.mem_singleton.mp hL)
  · have hmem : L ∈ (if bestGuessLabelOf resp ≠ "" then [bestGuessLabelOf resp] else [])
        ++ (tryMatchesC db (sortMatchesDesc
          (cartPossibleMatches resp (bestGuessLabelOf resp)))).2 := by
      split at hL
      · exact hL
      · exact hL
    rcases List.mem_append.mp hmem with hL' | hL'
    · split at hL'
      · exact Or.inr (List.mem_singleton.mp hL')
      · cases hL'
    · exact Or.inl (htail L hL')

/-- C3 as stated is false: for the vision response whose best-guess label is
"car" (not food-classified) and an empty catalog, the cart.ts orchestrator
passes "car" to `findBestProductMatch`. -/
theorem C3_counterexample :
    "car" ∈ (recognizeFoodWithVisionCart [] ⟨none, some ⟨none, some ["car"]⟩⟩).2 ∧
    isFood "car" = false := by
  constructor
  · decide
  · decide

/-- C3 amended: the vision.ts orchestrator passes only food-classified labels
to its product matcher, for every vision response; the cart.ts variant also
guards its label-annotation and web-entity candidates with the food filter,
but passes the best-guess label to the matcher with no food check. -/
theorem C3_matcher_food_guard :
    (∀ (env : MatchEnv) (resp : VisionResponse) (L : String),
      L ∈ (recognizeFoodWithVisionV env resp).2 → isFood L = true) ∧
    (∀ (db : List Product) (resp : VisionResponse) (L : String),
      L ∈ (recognizeFoodWithVisionCart db resp).2 →
        isFood L = true ∨ L = bestGuessLabelOf resp) :=
  ⟨fun env resp L hL => vision_trace_food env resp L hL,
   fun db resp L hL => cart_trace_food db resp L hL⟩

/-- Witness for C3's amended claim: the label "banana" reaching the vision.ts
matcher is food, and "car" reaching the cart.ts matcher is its best-guess
label. -/
theorem C3_matcher_food_guard_witness :
    "banana" ∈ (recognizeFoodWithVisionV ⟨fun _ => [], []⟩
      ⟨some [⟨"banana", 9/10⟩], none⟩).2 ∧
    isFood "banana" = true ∧
    (isFood "car" = true ∨
      "car" = bestGuessLabelOf ⟨none, some ⟨none, some ["car"]⟩⟩) :=
  ⟨by decide,
   C3_matcher_food_guard.1 ⟨fun _ => [], []⟩ ⟨some [⟨"banana", 9/10⟩], none⟩
     "banana" (by decide),
   C3_matcher_food_guard.2 [] ⟨none, some ⟨none, some ["car"]⟩⟩ "car" (by decide)⟩

theorem sameProduct_of_fields {it : RecognizedFoodItem} {p : Product}
    (h : itemFields it = productFields p) : sameProduct it p := by
  simp only [itemFields, productFields, Prod.mk.injEq] at h
  exact ⟨h.1, h.2.1, h.2.2.1, h.2.2.2.1, h.2.2.2.2.1, h.2.2.2.2.2⟩

theorem bgStepV_fields (env : MatchEnv) (resp : VisionResponse) :
    ((bgStepV env resp).1).map itemFields
      = ((bgCands resp).findSome? (foodMatch env)).map productFields := by
  by_cases hbg : bestGuessLabelOf resp ≠ ""
  · by_cases hf : isFood (bestGuessLabelOf resp) = true
    · rcases hm : getProductFromDatabase env (bestGuessLabelOf resp) with _ | p
      · simp [bgStepV, bgCands, foodMatch, hbg, hf, hm]
      · simp [bgStepV, bgCands, foodMatch, hbg, hf, hm, itemFields, productFields,
          productItem]
    · simp only [Bool.not_eq_true] at hf
      simp [bgStepV, bgCands, foodMatch, hbg, hf]
  · simp only [not_not] at hbg
    simp [bgStepV, bgCands, foodMatch, hbg]

theorem tryLabelsV_fields (env : MatchEnv) (ls : List LabelAnn) :
    ((tryLabelsV env ls).1).map itemFields
      = ((ls.map (·.description)).findSome? (foodMatch env)).map productFields := by
  induction ls with
  | nil => rfl
  | cons l ls ih =>
    by_cases hf : isFood l.description = true
    · rcases hm : getProductFromDatabase env l.description with _ | p
      · simp only [tryLabelsV, hf, if_true, hm, List.map_cons, List.findSome?_cons,
          foodMatch]
        simpa [foodMatch, hf, hm] using ih
      · simp [tryLabelsV, hf, hm, foodMatch, List.findSome?_cons, itemFields,
          productFields, productItem]
    · simp only [Bool.not_eq_true] at hf
      simp only [tryLabelsV, hf, Bool.false_eq_true, if_false, List.map_cons,
        List.findSome?_cons, foodMatch]
      simpa [foodMatch, hf] using ih

theorem tryWebEntitiesV_fields (env : MatchEnv) (es : List WebEntity) :
    ((tryWebEntitiesV env es).1).map itemFields
      = (((es.map (fun e => e.description.getD "")).filter (fun d => d ≠ "")).findSome?
          (foodMatch env)).map productFields := by
  induction es with
  | nil => rfl
  | cons e es ih =>
    by_cases hd : e.description.getD "" = ""
    · simp only [tryWebEntitiesV, hd, if_pos rfl, List.map_cons, List.filter_cons]
      simpa [hd] using ih
    · by_cases hf : isFood (e.description.getD "") = true
      · rcases hm : getProductFromDatabase env (e.description.getD "") with _ | p
        · simp only [tryWebEntitiesV, if_neg hd, hf, if_true, hm, List.map_cons,
            List.filter_cons]
          simp only [hd, decide_not, List.findSome?_cons]
          simpa [foodMatch, hf, hm, hd] using ih
        · simp [tryWebEntitiesV, if_neg hd, hf, hm, foodMatch, hd,
            List.findSome?_cons, itemFields, productFields, productItem]
      · simp only [Bool.not_eq_true] at hf
        simp only [tryWebEntitiesV, if_neg hd, hf, Bool.false_eq_true, if_false,
          List.map_cons, List.filter_cons]
        simp only [hd, decide_not, List.findSome?_cons]
        simpa [foodMatch, hf, hd] using ih

theorem firstCandidateMatch_or (env : MatchEnv) (resp : VisionResponse) :
    firstCandidateMatch env resp
      = (((bgCands resp).findSome? (foodMatch env)).or
          (((labelCands resp).findSome? (foodMatch env)).or
            ((webCands resp).findSome? (foodMatch env)))) := by
  simp [firstCandidateMatch, candidateLabels, List.findSome?_append]

/-- C4: after a successful, non-mocked call, the recognition orchestrator of
src/services/vision.ts returns an items list of length exactly 1: the first
catalog product resolved in candidate order (best-guess label, then top
label annotations, then top web entities), or, when every candidate is
exhausted without a match, the single "Not in database" sentinel — never a
default product. -/
theorem C4_single_item_candidate_order (env : MatchEnv) (resp : VisionResponse) :
    (recognizeFoodWithVisionV env resp).1.length = 1 ∧
    (∀ p, firstCandidateMatch env resp = some p →
      ∀ it ∈ (recognizeFoodWithVisionV env resp).1, sameProduct it p) ∧
    (firstCandidateMatch env resp = none →
      (recognizeFoodWithVisionV env resp).1 = [notInDatabaseItem]) := by
  have e1 := bgStepV_fields env resp
  have e2 := tryLabelsV_fields env ((sortLabelsDesc (resp.labelAnns.getD [])).take 3)
  have e3 := tryWebEntitiesV_fields env
    (((resp.webDetection.bind (·.webEntities)).getD []).take 3)
  have hfcm := firstCandidateMatch_or env resp
  have hlc : labelCands resp
      = ((sortLabelsDesc (resp.labelAnns.getD [])).take 3).map (·.description) := rfl
  have hwc : webCands resp
      = (((((resp.webDetection.bind (·.webEntities)).getD []).take 3).map
          (fun e => e.description.getD "")).filter (fun d => d ≠ "")) := rfl
  rcases h1 : (bgStepV env resp).1 with _ | it1
  · rw [h1] at e1
    have f1 : (bgCands resp).findSome? (foodMatch env) = none := by
      rcases hx : (bgCands resp).findSome? (foodMatch env) with _ | p
      · rfl
      · rw [hx] at e1; simp at e1
    rcases h2 : (tryLabelsV env ((sortLabelsDesc (resp.labelAnns.getD [])).take 3)).1
        with _ | it2
    · rw [h2] at e2
      have f2 : (labelCands resp).findSome? (foodMatch env) = none := by
        rw [hlc]
        rcases hx : (((sortLabelsDesc (resp.labelAnns.getD [])).take 3).map
            (·.description)).findSome? (foodMatch env) with _ | p
        · exact hx
        · rw [hx] at e2; simp at e2
      rcases h3 : (tryWebEntitiesV env
          (((resp.webDetection.bind (·.webEntities)).getD []).take 3)).1 with _ | it3
      · rw [h3] at e3
        have f3 : (webCands resp).findSome? (foodMatch env) = none := by
          rw [hwc]
          rcases hx : ((((((resp.webDetection.bind (·.webEntities)).getD []).take 3).map
              (fun e => e.description.getD "")).filter (fun d => d ≠ ""))).findSome?
              (foodMatch env) with _ | p
          · exact hx
          · rw [hx] at e3; simp at e3
        have hnone : firstCandidateMatch env resp = none := by
          rw [hfcm, f1, f2, f3]; rfl
        refine ⟨?_, ?_, ?_⟩
        · simp [recognizeFoodWithVisionV, h1, h2, h3]
        · intro p hp
          rw [hnone] at hp; cases hp
        · intro _
          simp [recognizeFoodWithVisionV, h1, h2, h3]
      · rw [h3] at e3
        have hsome := e3.symm
        rw [Option.map_some'] at hsome
        obtain ⟨p, hp, hfields⟩ := Option.map_eq_some'.mp hsome
        have hsomefcm : firstCandidateMatch env resp = some p := by
          rw [hfcm, f1, f2, hwc, hp]
          rfl
        refine ⟨?_, ?_, ?_⟩
        · simp [recognizeFoodWithVisionV, h1, h2, h3]
        · intro p' hp' it hit
          rw [hsomefcm] at hp'
          obtain rfl : p = p' := by injection hp'
          have : it = it3 := by
            have hout : (recognizeFoodWithVisionV env resp).1 = [it3] := by
              simp [recognizeFoodWithVisionV, h1, h2, h3]
            rw [hout] at hit
            exact List.mem_singleton.mp hit
          subst this
          exact sameProduct_of_fields hfields.symm
        · intro hc
          rw [hsomefcm] at hc; cases hc
    · rw [h2] at e2
      have hsome := e2.symm
      rw [Option.map_some'] at hsome
      obtain ⟨p, hp, hfields⟩ := Option.map_eq_some'.mp hsome
      have hsomefcm : firstCandidateMatch env resp = some p := by
        rw [hfcm, f1, hlc, hp]
        rfl
      refine ⟨?_, ?_, ?_⟩
      · simp [recognizeFoodWithVisionV, h1, h2]
      · intro p' hp' it hit
        rw [hsomefcm] at hp'
        obtain rfl : p = p' := by injection hp'
        have : it = it2 := by
          have hout : (recognizeFoodWithVisionV env resp).1 = [it2] := by
            simp [recognizeFoodWithVisionV, h1, h2]
          rw [hout] at hit
          exact List.mem_singleton.mp hit
        subst this
        exact sameProduct_of_fields hfields.symm
      · intro hc
        rw [hsomefcm] at hc; cases hc
  · rw [h1] at e1
    have hsome := e1.symm
    rw [Option.map_some'] at hsome
    obtain ⟨p, hp, hfields⟩ := Option.map_eq_some'.mp hsome
    have hsomefcm : firstCandidateMatch env resp = some p := by
      rw [hfcm, hp]
      rfl
    refine ⟨?_, ?_, ?_⟩
    · simp [recognizeFoodWithVisionV, h1]
    · intro p' hp' it hit
      rw [hsomefcm] at hp'
      obtain rfl : p = p' := by injection hp'
      have : it = it1 := by
        have hout : (recognizeFoodWithVisionV env resp).1 = [it1] := by
          simp [recognizeFoodWithVisionV, h1]
        rw [hout] at hit
        exact List.mem_singleton.mp hit
      subst this
      exact sameProduct_of_fields hfields.symm
    · intro hc
      rw [hsomefcm] at hc; cases hc

/-- Witness for C4: a response with no food-classified candidate yields the
sentinel, and a response whose best-guess label matches a catalog product
yields that product's single item. -/
theorem C4_single_item_candidate_order_witness :
    firstCandidateMatch ⟨fun _ => [], []⟩ ⟨none, some ⟨none, some ["car"]⟩⟩ = none ∧
    (recognizeFoodWithVisionV ⟨fun _ => [], []⟩ ⟨none, some ⟨none, some ["car"]⟩⟩).1
      = [notInDatabaseItem] ∧
    firstCandidateMatch
      ⟨fun _ => [], [⟨"pb", "Banana", "d", 1, "u", "", "Fruit"⟩]⟩
      ⟨none, some ⟨none, some ["banana"]⟩⟩
      = some ⟨"pb", "Banana", "d", 1, "u", "", "Fruit"⟩ ∧
    (∀ it ∈ (recognizeFoodWithVisionV
        ⟨fun _ => [], [⟨"pb", "Banana", "d", 1, "u", "", "Fruit"⟩]⟩
        ⟨none, some ⟨none, some ["banana"]⟩⟩).1,
      sameProduct it ⟨"pb", "Banana", "d", 1, "u", "", "Fruit"⟩) :=
  ⟨by decide,
   (C4_single_item_candidate_order ⟨fun _ => [], []⟩
     ⟨none, some ⟨none, some ["car"]⟩⟩).2.2 (by decide),
   by decide,
   fun it hit => (C4_single_item_candidate_order
     ⟨fun _ => [], [⟨"pb", "Banana", "d", 1, "u", "", "Fruit"⟩]⟩
     ⟨none, some ⟨none, some ["banana"]⟩⟩).2.1
     ⟨"pb", "Banana", "d", 1, "u", "", "Fruit"⟩ (by decide) it hit⟩

end SmartCart
